import Mathlib

/-!
Shallow embedding of the fund-tracking dashboard (React/TypeScript) core logic:
the real-time NAV estimation engine (FundDetail useMemo), the ETF feeder
pseudo-holding synthesis in getFundDetail, the instrument-code market
classifier and quote-batch construction, the trading-time gate, and the
watchlist store actions.

JavaScript numbers are modelled as rationals; NaN is modelled explicitly by
the type JSNum where the code can produce or compare NaN.  JavaScript strings
that are only consumed through parseFloat, emptiness (falsiness) tests and
equality with the sentinel literal are abstracted by the type JStr.
-/

/-- Abstraction of a JavaScript string as consumed by this code base:
`empty` is the empty string (falsy), `dashes` is the sentinel literal of two
dash characters (parseFloat gives NaN), `numeric q` is any non-empty,
non-sentinel string whose parseFloat value is the rational `q`, and `other`
is any other string (parseFloat gives NaN). -/
inductive JStr where
  | empty
  | dashes
  | numeric (q : ℚ)
  | other
deriving DecidableEq

/-- A JavaScript number: either NaN or an actual (rational) value. -/
inductive JSNum where
  | nan
  | num (q : ℚ)
deriving DecidableEq

/-- parseFloat on a JStr, with NaN represented as `none`. -/
def parseFloatQ : JStr → Option ℚ
  | .numeric q => some q
  | _ => none

/-- parseFloat on a JStr as a JSNum. -/
def parseFloatJS : JStr → JSNum
  | .numeric q => .num q
  | _ => .nan

def JSNum.add : JSNum → JSNum → JSNum
  | .num a, .num b => .num (a + b)
  | _, _ => .nan

def JSNum.sub : JSNum → JSNum → JSNum
  | .num a, .num b => .num (a - b)
  | _, _ => .nan

/-- JavaScript comparison a <= b: false whenever either side is NaN. -/
def JSNum.leB : JSNum → JSNum → Bool
  | .num a, .num b => a ≤ b
  | _, _ => false

/-- JavaScript comparison a < b: false whenever either side is NaN. -/
def JSNum.ltB : JSNum → JSNum → Bool
  | .num a, .num b => a < b
  | _, _ => false

/-- A holding row of a fund (interface HoldingStock): instrument code,
display name, percentage weight as a string. -/
structure HoldingStock where
  stockCode : String
  stockName : String
  ratio : JStr
deriving DecidableEq

/-- A bond holding row (interface BondHolding). -/
structure BondHolding where
  bondCode : String
  bondName : String
  ratio : JStr
deriving DecidableEq

/-- A live quote (interface StockQuote).  changePct is optional because the
estimation code guards against it being undefined at runtime. -/
structure StockQuote where
  code : String
  price : JStr
  changeRaw : JStr
  changePct : Option JStr
deriving DecidableEq

/-- The quote dictionary keyed by instrument code, as an association list. -/
abbrev QuoteMap := List (String × StockQuote)

/-- Dictionary lookup quotes[stock.stockCode]. -/
def quoteLookup (m : QuoteMap) (c : String) : Option StockQuote :=
  match m.find? (fun p => p.1 == c) with
  | some p => some p.2
  | none => none

/-- The latest-confirmed-NAV record (interface FundEstimate). -/
structure FundEstimate where
  code : String
  name : String
  gsz : JStr
  gszzl : JStr
deriving DecidableEq

/-- A fund detail record as consumed by the estimation engine
(interface FundDetail, restricted to the fields the engine reads). -/
structure FundDetailData where
  code : String
  name : String
  holdings : List HoldingStock
  bondHoldings : List BondHolding
deriving DecidableEq

/-- Result record of the estimation useMemo in FundDetail. -/
structure EstimationResult where
  estimatedChangePct : Option ℚ
  realTimeEstimatedNav : Option JSNum
  totalKnownRatio : ℚ
deriving DecidableEq

/-- The record returned on every unavailable path of the estimation memo. -/
def unavailableResult : EstimationResult :=
  { estimatedChangePct := none, realTimeEstimatedNav := none, totalKnownRatio := 0 }

/-- One iteration of the forEach loop over detail.holdings: the accumulator is
(totalWeightedChange, totalRatio, hasValidData).  A holding contributes only
when its quote resolves, the quote change is defined and not the sentinel,
and both the ratio and the change parse as numbers. -/
def estimateStep (quotes : QuoteMap) (acc : ℚ × ℚ × Bool) (stock : HoldingStock) :
    ℚ × ℚ × Bool :=
  match quoteLookup quotes stock.stockCode with
  | none => acc
  | some quote =>
    match quote.changePct with
    | none => acc
    | some cp =>
      if cp = JStr.dashes then acc
      else
        match parseFloatQ stock.ratio, parseFloatQ cp with
        | some r, some c => (acc.1 + r / 100 * c, acc.2.1 + r / 100, true)
        | some _, none => acc
        | none, some _ => acc
        | none, none => acc

/-- parseFloat(estimate.gsz || '0') as a JSNum: the empty string falls back to
the literal '0'. -/
def parseBaseNav (g : JStr) : JSNum :=
  if g = JStr.empty then .num 0 else parseFloatJS g

/-- baseNav * (1 + extrapolatedChangePct / 100) with NaN propagation. -/
def navFrom (baseNav : JSNum) (pct : ℚ) : JSNum :=
  match baseNav with
  | .nan => .nan
  | .num b => .num (b * (1 + pct / 100))

/-- The tail of the estimation memo after the forEach loop: if no holding
contributed or the accumulated ratio is 0 the result is unavailable, else the
extrapolated change is totalWeightedChange / totalRatio, the NAV follows the
formula, and the reported known weight is totalRatio * 100. -/
def estimationFromAcc (acc : ℚ × ℚ × Bool) (est : FundEstimate) : EstimationResult :=
  if acc.2.2 = false ∨ acc.2.1 = 0 then unavailableResult
  else
    { estimatedChangePct := some (acc.1 / acc.2.1)
      realTimeEstimatedNav := some (navFrom (parseBaseNav est.gsz) (acc.1 / acc.2.1))
      totalKnownRatio := acc.2.1 * 100 }

/-- The real-time estimation useMemo of FundDetail: from the fund detail, the
quote dictionary and the latest confirmed NAV record, compute the extrapolated
change percentage, the extrapolated NAV, and the total known weight. -/
def computeEstimation (detail : Option FundDetailData) (quotes : QuoteMap)
    (estimate : Option FundEstimate) : EstimationResult :=
  match detail, estimate with
  | none, _ => unavailableResult
  | _, none => unavailableResult
  | some d, some est =>
    if d.holdings.length = 0 ∨ quotes.length = 0 then unavailableResult
    else
      estimationFromAcc (d.holdings.foldl (estimateStep quotes) (0, 0, false)) est

/-- Specification-level view of one holding's contribution: `some (w, c)`
when the holding contributes with normalized weight w = ratio/100 and change
c, and `none` when it is skipped. -/
def holdingContrib (quotes : QuoteMap) (s : HoldingStock) : Option (ℚ × ℚ) :=
  match quoteLookup quotes s.stockCode with
  | none => none
  | some quote =>
    match quote.changePct with
    | none => none
    | some cp =>
      if cp = JStr.dashes then none
      else
        match parseFloatQ s.ratio, parseFloatQ cp with
        | some r, some c => some (r / 100, c)
        | _, _ => none

/-- Sum over contributing holdings of weight/100. -/
def weightSumSpec (quotes : QuoteMap) (hs : List HoldingStock) : ℚ :=
  (hs.map (fun s => match holdingContrib quotes s with
    | some wc => wc.1
    | none => 0)).sum

/-- Sum over contributing holdings of (weight/100) * changePct. -/
def weightedChangeSumSpec (quotes : QuoteMap) (hs : List HoldingStock) : ℚ :=
  (hs.map (fun s => match holdingContrib quotes s with
    | some wc => wc.1 * wc.2
    | none => 0)).sum

/-- Exchange classification (type StockMarket). -/
inductive StockMarket where
  | SH
  | SZ
  | HK
  | unknown
deriving DecidableEq

/-- String startsWith, stated on the underlying character lists (the library
implementation via substrings does not evaluate by kernel reduction): the
string starts with the pattern exactly when its first characters are the
pattern's characters. -/
def strStarts (s pat : String) : Bool := s.data.take pat.data.length == pat.data

/-- getStockMarket from src/api/jsonp.ts: empty codes are unknown, 5-character
codes are Hong Kong, codes starting with 6 or 5 are Shanghai, codes starting
with 0, 3, 15, 16, 2, 8 or 4 are Shenzhen, everything else is unknown. -/
def getStockMarket (code : String) : StockMarket :=
  if code = "" then .unknown
  else if code.length = 5 then .HK
  else if strStarts code "6" || strStarts code "5" then .SH
  else if strStarts code "0" || strStarts code "3" || strStarts code "15" ||
      strStarts code "16" || strStarts code "2" || strStarts code "8" ||
      strStarts code "4" then .SZ
  else .unknown

/-- The market-tagged code getStockQuotes builds for one instrument; unknown
markets map to the empty string. -/
def marketTag (c : String) : String :=
  match getStockMarket c with
  | .SH => "sh" ++ c
  | .SZ => "sz" ++ c
  | .HK => "hk" ++ c
  | .unknown => ""

/-- The list of tagged codes included in the quote batch request built by
getStockQuotes: map to tagged form, then filter(Boolean) drops the empty
strings coming from unknown markets. -/
def quoteQueryCodes (codes : List String) : List String :=
  (codes.map marketTag).filter (fun s => s != "")

/-- isTradingTime from FundDetail, as a function of the local day of week
(0 = Sunday, ..., 6 = Saturday), hour and minute of the current Date:
weekends are closed, and the time converted to h * 100 + m must lie in
[900, 1200] or [1300, 1600). -/
def isTradingTime (day h m : Nat) : Bool :=
  if day == 0 || day == 6 then false
  else
    let timeNum := h * 100 + m
    if 900 ≤ timeNum && timeNum ≤ 1200 then true
    else if 1300 ≤ timeNum && timeNum < 1600 then true
    else false

/-- toFixed(2) of an actual number: round to two decimal places (half away
from zero for the positive values this code feeds it). -/
def toFixed2 (q : ℚ) : ℚ := (round (q * 100) : ℤ) / 100

/-- toFixed(2) of a JS number as a string: NaN stringifies to a non-parsing
string, numbers to their two-decimal rounding. -/
def toFixedStr : JSNum → JStr
  | .nan => .other
  | .num q => .numeric (toFixed2 q)

/-- parseFloat(ratio || '0'): an empty weight falls back to the literal 0. -/
def ratioOrZero (r : JStr) : JSNum :=
  if r = JStr.empty then .num 0 else parseFloatJS r

/-- currentTotal in getFundDetail: sum of parseFloat(ratio || '0') over the
known stock holdings and then the bond holdings. -/
def currentTotalJS (stocks : List HoldingStock) (bonds : List BondHolding) : JSNum :=
  bonds.foldl (fun acc b => acc.add (ratioOrZero b.ratio))
    (stocks.foldl (fun acc s => acc.add (ratioOrZero s.ratio)) (.num 0))

/-- parseFloat(cashSeries.data[last] || '5'): an empty latest cash point
falls back to the literal 5. -/
def cashValJS (d : JStr) : JSNum :=
  if d = JStr.empty then .num 5 else parseFloatJS d

/-- preciseEtfRatio before the fallback: the parsed JJ field when it is
present, non-empty and not the sentinel, else the initial 0. -/
def preciseRatio0 (allocJJ : Option JStr) : JSNum :=
  match allocJJ with
  | some jj =>
    if jj = JStr.empty ∨ jj = JStr.dashes then .num 0 else parseFloatJS jj
  | none => .num 0

/-- estimatedEtfRatio before the second range check: present cash series with
data gives 100 - latestCashRatio - currentTotal, otherwise the initial 0. -/
def estimatedEtfRatio0 (cashSeriesData : Option (List JStr))
    (currentTotal : JSNum) : JSNum :=
  match cashSeriesData with
  | some ds =>
    if 0 < ds.length then
      ((JSNum.num 100).sub (cashValJS (ds.getLastD JStr.other))).sub currentTotal
    else .num 0
  | none => .num 0

/-- The synthetic ratio before the final clamp: the precise allocation figure
if its JS range check passes, else the cash-series estimate if its JS range
check passes, else 95 - currentTotal. -/
def etfRatioFinal (allocJJ : Option JStr) (cashSeriesData : Option (List JStr))
    (currentTotal : JSNum) : JSNum :=
  if (preciseRatio0 allocJJ).leB (.num 0) ||
      (JSNum.num 100).ltB (preciseRatio0 allocJJ) then
    if (estimatedEtfRatio0 cashSeriesData currentTotal).leB (.num 0) ||
        (JSNum.num 100).ltB (estimatedEtfRatio0 cashSeriesData currentTotal) then
      (JSNum.num 95).sub currentTotal
    else estimatedEtfRatio0 cashSeriesData currentTotal
  else preciseRatio0 allocJJ

/-- The ETF feeder pseudo-holding synthesis of getFundDetail
(src/api/jsonp.ts lines 271-316).  etfCode and etfShortName are `none` when
the ETFCODE / ETFSHORTNAME fields are absent or empty (falsy); allocJJ is the
JJ field of the first row of the asset-allocation response when that request
succeeded with a non-empty Datas array, `none` otherwise; cashSeriesData is
the data array of the cash series of window.Data_assetAllocation when all of
the structure checks of the source pass, `none` otherwise.  JavaScript NaN
comparison semantics (every comparison with NaN is false) is preserved via
JSNum.  The ratio sort performed afterwards by getFundDetail is outside this
function. -/
def synthesizeEtf (etfCode etfShortName : Option String) (allocJJ : Option JStr)
    (cashSeriesData : Option (List JStr)) (stocks : List HoldingStock)
    (bonds : List BondHolding) : List HoldingStock :=
  match etfCode, etfShortName with
  | some ec, some en =>
    let withFallback := etfRatioFinal allocJJ cashSeriesData
      (currentTotalJS stocks bonds)
    let clamped := if withFallback.ltB (.num 0) then JSNum.num 0 else withFallback
    if (JSNum.num 0).ltB clamped then
      stocks ++ [{ stockCode := ec,
                   stockName := en ++ " (主要联接标的)",
                   ratio := toFixedStr clamped }]
    else stocks
  | _, _ => stocks

/-- Specification-level sum of the known holding weights: every weight field
is read as its numeric value, empty or non-parsing fields as 0. -/
def sumKnownWeights (stocks : List HoldingStock) (bonds : List BondHolding) : ℚ :=
  (stocks.map (fun s => match s.ratio with | JStr.numeric q => q | _ => 0)).sum +
    (bonds.map (fun b => match b.ratio with | JStr.numeric q => q | _ => 0)).sum

/-- All known weight fields are empty or parse as numbers (the scope on which
the synthetic-weight arithmetic is NaN-free). -/
def ratiosParse (stocks : List HoldingStock) (bonds : List BondHolding) : Prop :=
  (∀ s ∈ stocks, s.ratio = JStr.empty ∨ ∃ q, s.ratio = JStr.numeric q) ∧
    (∀ b ∈ bonds, b.ratio = JStr.empty ∨ ∃ q, b.ratio = JStr.numeric q)

/-- The precise allocation-ratio field is absent, empty, the sentinel, or a
number outside (0, 100]: in these cases the source falls through to the
estimated weight. -/
def jjRejected (allocJJ : Option JStr) : Prop :=
  allocJJ = none ∨ allocJJ = some JStr.empty ∨ allocJJ = some JStr.dashes ∨
    ∃ r, allocJJ = some (JStr.numeric r) ∧ (r ≤ 0 ∨ 100 < r)

/-- The numeric reading of the latest cash point: empty reads as the default
5, numeric as itself, non-parsing as `none` (NaN). -/
def lastCashParsed (ds : List JStr) : Option ℚ :=
  match ds.getLastD JStr.other with
  | JStr.empty => some 5
  | JStr.numeric q => some q
  | _ => none

/-- A watchlist entry (interface MyFund): FundBasic plus the added timestamp
and the optional position fields. -/
structure MyFund where
  code : String
  name : String
  type : Option String
  manager : Option String
  addedAt : Nat
  shares : Option ℚ
  cost : Option ℚ
deriving DecidableEq

/-- The argument of addFund: Omit of MyFund without addedAt. -/
structure NewFund where
  code : String
  name : String
  type : Option String
  manager : Option String
  shares : Option ℚ
  cost : Option ℚ
deriving DecidableEq

/-- { ...fund, addedAt: Date.now() }. -/
def NewFund.stamp (fund : NewFund) (now : Nat) : MyFund :=
  { code := fund.code, name := fund.name, type := fund.type,
    manager := fund.manager, addedAt := now, shares := fund.shares,
    cost := fund.cost }

/-- The zustand store state (interface FundStore): watchlist, selection and
the four code-keyed caches. -/
structure FundStore where
  funds : List MyFund
  selectedCode : Option String
  estimates : String → Option FundEstimate
  details : String → Option FundDetailData
  loadingEstimate : String → Option Bool
  loadingDetail : String → Option Bool

/-- addFund: if a fund with the same code is already present the state is
returned unchanged, else the stamped fund is appended. -/
def addFund (s : FundStore) (fund : NewFund) (now : Nat) : FundStore :=
  match s.funds.find? (fun f => f.code == fund.code) with
  | some _ => s
  | none => { s with funds := s.funds ++ [fund.stamp now] }

/-- The saveToStorage call performed by addFund: `none` when the early-return
duplicate branch is taken (nothing is written), otherwise the new list that
is written. -/
def addFundWrite (s : FundStore) (fund : NewFund) (now : Nat) :
    Option (List MyFund) :=
  match s.funds.find? (fun f => f.code == fund.code) with
  | some _ => none
  | none => some (s.funds ++ [fund.stamp now])

/-- removeFund: filter the code out of the list and clear the selection when
it pointed at the removed code. -/
def removeFund (s : FundStore) (code : String) : FundStore :=
  { s with
    funds := s.funds.filter (fun f => f.code != code)
    selectedCode := if s.selectedCode = some code then none else s.selectedCode }

/-- selectFund. -/
def selectFund (s : FundStore) (code : String) : FundStore :=
  { s with selectedCode := some code }

/-- setEstimate: spread-and-overwrite of the estimates map. -/
def setEstimate (s : FundStore) (code : String) (e : FundEstimate) : FundStore :=
  { s with estimates := fun c => if c = code then some e else s.estimates c }

/-- setDetail: spread-and-overwrite of the details map. -/
def setDetail (s : FundStore) (code : String) (d : FundDetailData) : FundStore :=
  { s with details := fun c => if c = code then some d else s.details c }

/-- setLoadingEstimate: spread-and-overwrite of the loading map. -/
def setLoadingEstimate (s : FundStore) (code : String) (b : Bool) : FundStore :=
  { s with loadingEstimate := fun c =>
      if c = code then some b else s.loadingEstimate c }

/-- setLoadingDetail: spread-and-overwrite of the loading map. -/
def setLoadingDetail (s : FundStore) (code : String) (b : Bool) : FundStore :=
  { s with loadingDetail := fun c =>
      if c = code then some b else s.loadingDetail c }

/-- One invocation of a store action. -/
inductive FundAction where
  | add (fund : NewFund) (now : Nat)
  | remove (code : String)
  | select (code : String)
  | setEst (code : String) (e : FundEstimate)
  | setDet (code : String) (d : FundDetailData)
  | setLoadEst (code : String) (b : Bool)
  | setLoadDet (code : String) (b : Bool)

/-- Apply one action to the store state. -/
def FundAction.apply (s : FundStore) : FundAction → FundStore
  | .add fund now => addFund s fund now
  | .remove code => removeFund s code
  | .select code => selectFund s code
  | .setEst code e => setEstimate s code e
  | .setDet code d => setDetail s code d
  | .setLoadEst code b => setLoadingEstimate s code b
  | .setLoadDet code b => setLoadingDetail s code b

/-- Apply a sequence of actions. -/
def applyActions (s : FundStore) (acts : List FundAction) : FundStore :=
  acts.foldl FundAction.apply s

/-- The codes of the watchlist entries. -/
def codesOf (fs : List MyFund) : List String := fs.map (fun f => f.code)

/-- Each loop iteration either adds the spec-level contribution and sets the
flag, or leaves the accumulator untouched. -/
theorem estimateStep_eq_contrib (quotes : QuoteMap) (acc : ℚ × ℚ × Bool)
    (s : HoldingStock) :
    estimateStep quotes acc s =
      match holdingContrib quotes s with
      | some wc => (acc.1 + wc.1 * wc.2, acc.2.1 + wc.1, true)
      | none => acc := by
  unfold estimateStep holdingContrib
  cases hq : quoteLookup quotes s.stockCode with
  | none => simp
  | some q =>
    cases hcp : q.changePct with
    | none => simp [hcp]
    | some cp =>
      by_cases h : cp = JStr.dashes
      · simp [hcp, h]
      · simp only [hcp, if_neg h]
        cases hr : parseFloatQ s.ratio <;> cases hc : parseFloatQ cp <;> rfl

/-- Unrolling the forEach loop: starting from any accumulator, the fold adds
the spec-level sums and the validity flag records whether any holding
contributed. -/
theorem foldl_estimateStep (quotes : QuoteMap) (hs : List HoldingStock)
    (a b : ℚ) (f : Bool) :
    hs.foldl (estimateStep quotes) (a, b, f) =
      (a + weightedChangeSumSpec quotes hs, b + weightSumSpec quotes hs,
       f || hs.any (fun s => (holdingContrib quotes s).isSome)) := by
  induction hs generalizing a b f with
  | nil => simp [weightedChangeSumSpec, weightSumSpec]
  | cons s t ih =>
    simp only [List.foldl_cons, estimateStep_eq_contrib]
    cases hc : holdingContrib quotes s with
    | none =>
      rw [ih]
      simp [weightedChangeSumSpec, weightSumSpec, hc]
    | some wc =>
      rw [ih]
      simp only [weightedChangeSumSpec, weightSumSpec, List.map_cons, List.sum_cons,
        List.any_cons, hc, Option.isSome_some, Bool.true_or, Bool.or_true]
      refine Prod.ext (by ring) (Prod.ext (by ring) rfl)

/-- If no holding of the list contributes, the spec-level weight sum is 0. -/
theorem weightSumSpec_eq_zero_of_none (quotes : QuoteMap) (hs : List HoldingStock)
    (h : ∀ s ∈ hs, holdingContrib quotes s = none) :
    weightSumSpec quotes hs = 0 := by
  unfold weightSumSpec
  rw [List.sum_eq_zero]
  intro x hx
  rw [List.mem_map] at hx
  obtain ⟨s, hs1, hs2⟩ := hx
  rw [h s hs1] at hs2
  exact hs2.symm

/-- A contributing holding forces the quote map to be non-empty. -/
theorem quotes_ne_nil_of_contrib (quotes : QuoteMap) (s : HoldingStock)
    (h : (holdingContrib quotes s).isSome) : quotes ≠ [] := by
  intro he
  subst he
  simp [holdingContrib, quoteLookup] at h

/-- C1: whenever at least one holding has a resolvable quote with a numeric
change percentage and a numeric weight (and the contributing weights do not
sum to zero, so that the division is meaningful), the output change
percentage is the weighted-average change of the contributing holdings,
re-normalized to their own total weight, and the reported total known weight
is that weight sum times 100. -/
theorem c1_weighted_average (d : FundDetailData) (quotes : QuoteMap)
    (est : FundEstimate)
    (hcontrib : ∃ s ∈ d.holdings, (holdingContrib quotes s).isSome = true)
    (hws : weightSumSpec quotes d.holdings ≠ 0) :
    (computeEstimation (some d) quotes (some est)).estimatedChangePct =
      some (weightedChangeSumSpec quotes d.holdings /
        weightSumSpec quotes d.holdings) ∧
    (computeEstimation (some d) quotes (some est)).totalKnownRatio =
      weightSumSpec quotes d.holdings * 100 := by
  obtain ⟨s, hsmem, hsome⟩ := hcontrib
  have hh : d.holdings.length ≠ 0 := by
    intro h
    rw [List.length_eq_zero] at h
    rw [h] at hsmem
    exact absurd hsmem (List.not_mem_nil s)
  have hq : quotes.length ≠ 0 := by
    intro h
    rw [List.length_eq_zero] at h
    exact quotes_ne_nil_of_contrib quotes s hsome h
  have hany : d.holdings.any (fun t => (holdingContrib quotes t).isSome) = true :=
    List.any_eq_true.mpr ⟨s, hsmem, hsome⟩
  have hred : computeEstimation (some d) quotes (some est) =
      estimationFromAcc (d.holdings.foldl (estimateStep quotes) (0, 0, false)) est := by
    show (if d.holdings.length = 0 ∨ quotes.length = 0 then unavailableResult
      else estimationFromAcc (d.holdings.foldl (estimateStep quotes) (0, 0, false)) est) = _
    rw [if_neg (by push_neg; exact ⟨hh, hq⟩)]
  rw [hred, foldl_estimateStep]
  unfold estimationFromAcc
  rw [if_neg (by push_neg; refine ⟨by simp [hany], by simpa using hws⟩)]
  constructor
  · simp
  · simp

/-- Witness for C1: a two-holding portfolio with weights 60 and 40 and
changes +1 and -2 yields change percentage -0.2 and known weight 100. -/
theorem c1_weighted_average_witness :
    (∃ s ∈ ([⟨"600519", "A", JStr.numeric 60⟩, ⟨"000001", "B", JStr.numeric 40⟩] :
        List HoldingStock),
      (holdingContrib
        [("600519", ⟨"600519", JStr.numeric 10, JStr.numeric 1, some (JStr.numeric 1)⟩),
         ("000001", ⟨"000001", JStr.numeric 20, JStr.numeric 2, some (JStr.numeric (-2))⟩)]
        s).isSome = true) ∧
    (computeEstimation
      (some ⟨"161725", "F",
        [⟨"600519", "A", JStr.numeric 60⟩, ⟨"000001", "B", JStr.numeric 40⟩], []⟩)
      [("600519", ⟨"600519", JStr.numeric 10, JStr.numeric 1, some (JStr.numeric 1)⟩),
       ("000001", ⟨"000001", JStr.numeric 20, JStr.numeric 2, some (JStr.numeric (-2))⟩)]
      (some ⟨"161725", "F", JStr.numeric (5/2), JStr.numeric 0⟩)).estimatedChangePct =
      some (-1/5) := by
  refine ⟨⟨⟨"600519", "A", JStr.numeric 60⟩, by simp,
    by simp +decide [holdingContrib, quoteLookup, parseFloatQ]⟩, ?_⟩
  have h := c1_weighted_average
    ⟨"161725", "F",
      [⟨"600519", "A", JStr.numeric 60⟩, ⟨"000001", "B", JStr.numeric 40⟩], []⟩
    [("600519", ⟨"600519", JStr.numeric 10, JStr.numeric 1, some (JStr.numeric 1)⟩),
     ("000001", ⟨"000001", JStr.numeric 20, JStr.numeric 2, some (JStr.numeric (-2))⟩)]
    ⟨"161725", "F", JStr.numeric (5/2), JStr.numeric 0⟩
    ⟨⟨"600519", "A", JStr.numeric 60⟩, by simp,
      by simp +decide [holdingContrib, quoteLookup, parseFloatQ]⟩
    (by simp +decide [weightSumSpec, holdingContrib, quoteLookup, parseFloatQ]
        norm_num)
  rw [h.1]
  simp +decide [weightedChangeSumSpec, weightSumSpec, holdingContrib, quoteLookup,
    parseFloatQ]
  norm_num

/-- Reduction of the estimation memo on present detail and estimate. -/
theorem computeEstimation_some (dd : FundDetailData) (quotes : QuoteMap)
    (est : FundEstimate) :
    computeEstimation (some dd) quotes (some est) =
      if dd.holdings.length = 0 ∨ quotes.length = 0 then unavailableResult
      else estimationFromAcc (dd.holdings.foldl (estimateStep quotes) (0, 0, false)) est :=
  rfl

/-- Reduction of the post-loop logic on an explicit accumulator triple. -/
theorem estimationFromAcc_mk (a b : ℚ) (f : Bool) (est : FundEstimate) :
    estimationFromAcc (a, b, f) est =
      if f = false ∨ b = 0 then unavailableResult
      else
        { estimatedChangePct := some (a / b)
          realTimeEstimatedNav := some (navFrom (parseBaseNav est.gsz) (a / b))
          totalKnownRatio := b * 100 } :=
  rfl

/-- C2: whenever the estimator produces a change percentage pct and the last
confirmed NAV parses as the number b, the estimated NAV it reports is exactly
b * (1 + pct / 100). -/
theorem c2_nav_formula (d : Option FundDetailData) (quotes : QuoteMap)
    (est : FundEstimate) (pct b : ℚ)
    (hp : (computeEstimation d quotes (some est)).estimatedChangePct = some pct)
    (hb : parseBaseNav est.gsz = JSNum.num b) :
    (computeEstimation d quotes (some est)).realTimeEstimatedNav =
      some (JSNum.num (b * (1 + pct / 100))) := by
  cases d with
  | none => simp [computeEstimation, unavailableResult] at hp
  | some dd =>
    rw [computeEstimation_some] at hp ⊢
    by_cases h1 : dd.holdings.length = 0 ∨ quotes.length = 0
    · rw [if_pos h1] at hp
      simp [unavailableResult] at hp
    · rw [if_neg h1] at hp ⊢
      rw [foldl_estimateStep, estimationFromAcc_mk] at hp ⊢
      by_cases h2 : (false || dd.holdings.any fun s => (holdingContrib quotes s).isSome) = false ∨
          (0 : ℚ) + weightSumSpec quotes dd.holdings = 0
      · rw [if_pos h2] at hp
        simp [unavailableResult] at hp
      · rw [if_neg h2] at hp ⊢
        simp only [Option.some.injEq] at hp
        simp only [navFrom, hb, hp]

/-- Witness for C2 with the worked example from the specification: last NAV
2.5, holdings (weight 60, change +1) and (weight 40, change -2) give change
percentage -0.2 and estimated NAV 2.495. -/
theorem c2_nav_formula_witness :
    (computeEstimation
      (some ⟨"161725", "F",
        [⟨"600519", "A", JStr.numeric 60⟩, ⟨"000001", "B", JStr.numeric 40⟩], []⟩)
      [("600519", ⟨"600519", JStr.numeric 10, JStr.numeric 1, some (JStr.numeric 1)⟩),
       ("000001", ⟨"000001", JStr.numeric 20, JStr.numeric 2, some (JStr.numeric (-2))⟩)]
      (some ⟨"161725", "F", JStr.numeric (5/2), JStr.numeric 0⟩)).estimatedChangePct =
      some (-1/5) ∧
    (computeEstimation
      (some ⟨"161725", "F",
        [⟨"600519", "A", JStr.numeric 60⟩, ⟨"000001", "B", JStr.numeric 40⟩], []⟩)
      [("600519", ⟨"600519", JStr.numeric 10, JStr.numeric 1, some (JStr.numeric 1)⟩),
       ("000001", ⟨"000001", JStr.numeric 20, JStr.numeric 2, some (JStr.numeric (-2))⟩)]
      (some ⟨"161725", "F", JStr.numeric (5/2), JStr.numeric 0⟩)).realTimeEstimatedNav =
      some (JSNum.num (499/200)) := by
  have hp : (computeEstimation
      (some ⟨"161725", "F",
        [⟨"600519", "A", JStr.numeric 60⟩, ⟨"000001", "B", JStr.numeric 40⟩], []⟩)
      [("600519", ⟨"600519", JStr.numeric 10, JStr.numeric 1, some (JStr.numeric 1)⟩),
       ("000001", ⟨"000001", JStr.numeric 20, JStr.numeric 2, some (JStr.numeric (-2))⟩)]
      (some ⟨"161725", "F", JStr.numeric (5/2), JStr.numeric 0⟩)).estimatedChangePct =
      some (-1/5) := by
    simp +decide [computeEstimation, estimationFromAcc, estimateStep,
      quoteLookup, parseFloatQ]
    norm_num
  refine ⟨hp, ?_⟩
  have h := c2_nav_formula
    (some ⟨"161725", "F",
      [⟨"600519", "A", JStr.numeric 60⟩, ⟨"000001", "B", JStr.numeric 40⟩], []⟩)
    [("600519", ⟨"600519", JStr.numeric 10, JStr.numeric 1, some (JStr.numeric 1)⟩),
     ("000001", ⟨"000001", JStr.numeric 20, JStr.numeric 2, some (JStr.numeric (-2))⟩)]
    ⟨"161725", "F", JStr.numeric (5/2), JStr.numeric 0⟩ (-1/5) (5/2)
    hp
    (by simp [parseBaseNav, parseFloatJS])
  rw [h]
  norm_num

/-- C3: the estimator is unavailable exactly when the holdings list is empty,
the quote dictionary is empty, the fund estimate is missing, or the weights of
the contributing holdings sum to zero (in particular when no holding has a
resolvable numeric quote); otherwise it produces the full numeric record. -/
theorem c3_unavailable_iff (dd : FundDetailData) (quotes : QuoteMap)
    (e : Option FundEstimate) :
    computeEstimation (some dd) quotes e = unavailableResult ↔
      (dd.holdings = [] ∨ quotes = [] ∨ e = none ∨
        weightSumSpec quotes dd.holdings = 0) := by
  cases e with
  | none => simp [computeEstimation]
  | some est =>
    rw [computeEstimation_some]
    by_cases h1 : dd.holdings.length = 0 ∨ quotes.length = 0
    · rw [if_pos h1]
      constructor
      · intro _
        rcases h1 with h | h
        · exact Or.inl (List.length_eq_zero.mp h)
        · exact Or.inr (Or.inl (List.length_eq_zero.mp h))
      · intro _
        rfl
    · rw [if_neg h1]
      push_neg at h1
      obtain ⟨hh, hq⟩ := h1
      have hh2 : dd.holdings ≠ [] := fun c => hh (by rw [c]; rfl)
      have hq2 : quotes ≠ [] := fun c => hq (by rw [c]; rfl)
      rw [foldl_estimateStep, estimationFromAcc_mk]
      simp only [Bool.false_or, zero_add]
      by_cases h2 : (dd.holdings.any fun s => (holdingContrib quotes s).isSome) = false ∨
          weightSumSpec quotes dd.holdings = 0
      · rw [if_pos h2]
        have hws : weightSumSpec quotes dd.holdings = 0 := by
          rcases h2 with h | h
          · exact weightSumSpec_eq_zero_of_none quotes dd.holdings (by simpa using h)
          · exact h
        simp [hh2, hq2, hws]
      · rw [if_neg h2]
        push_neg at h2
        obtain ⟨_, hws⟩ := h2
        simp [unavailableResult, hh2, hq2, hws, EstimationResult.mk.injEq]

/-- C4: a holding whose instrument code is not in the quote dictionary, or
whose quote change is undefined, the sentinel, or a non-parsing string, leaves
the loop accumulator (both sums and the validity flag) completely untouched:
it is skipped, not treated as a zero change. -/
theorem c4_unresolvable_skipped (quotes : QuoteMap) (acc : ℚ × ℚ × Bool)
    (stock : HoldingStock)
    (h : quoteLookup quotes stock.stockCode = none ∨
      ∃ q, quoteLookup quotes stock.stockCode = some q ∧
        (q.changePct = none ∨ q.changePct = some JStr.dashes ∨
          ∃ cp, q.changePct = some cp ∧ parseFloatQ cp = none)) :
    estimateStep quotes acc stock = acc := by
  rw [estimateStep_eq_contrib]
  rcases h with h | ⟨q, hq, hcase⟩
  · unfold holdingContrib
    rw [h]
  · unfold holdingContrib
    rw [hq]
    rcases hcase with hc | hc | ⟨cp, hcp, hpf⟩
    · simp only [hc]
    · simp only [hc]
      simp
    · simp only [hcp]
      by_cases hd : cp = JStr.dashes
      · simp [hd]
      · simp only [if_neg hd, hpf]
        cases parseFloatQ stock.ratio <;> simp

/-- Witness for C4: a holding with no entry in the quote dictionary leaves a
concrete accumulator unchanged. -/
theorem c4_unresolvable_skipped_witness :
    estimateStep [("600519", ⟨"600519", JStr.numeric 10, JStr.numeric 1,
        some (JStr.numeric 1)⟩)]
      (7, 2, true) ⟨"999999", "X", JStr.numeric 30⟩ = (7, 2, true) :=
  c4_unresolvable_skipped _ _ _
    (Or.inl (by simp +decide [quoteLookup]))

/-- C5: for a single-holding portfolio whose only holding has a resolvable
quote with numeric change c and a weight w with 0 < w ≤ 100, the extrapolated
change percentage is exactly c: the weight cancels in the self-normalization. -/
theorem c5_single_holding (dd : FundDetailData) (quotes : QuoteMap)
    (est : FundEstimate) (stock : HoldingStock) (q : StockQuote) (cp : JStr)
    (w c : ℚ)
    (hh : dd.holdings = [stock])
    (hq : quoteLookup quotes stock.stockCode = some q)
    (hcp : q.changePct = some cp)
    (hc : parseFloatQ cp = some c)
    (hw : parseFloatQ stock.ratio = some w)
    (hw0 : 0 < w) (hw100 : w ≤ 100) :
    (computeEstimation (some dd) quotes (some est)).estimatedChangePct = some c := by
  have hcd : cp ≠ JStr.dashes := by
    intro hd
    rw [hd] at hc
    simp [parseFloatQ] at hc
  have hcontrib : holdingContrib quotes stock = some (w / 100, c) := by
    unfold holdingContrib
    rw [hq]
    simp only [hcp, if_neg hcd, hw, hc]
  have hq2 : quotes ≠ [] := by
    intro hqe
    rw [hqe] at hq
    simp [quoteLookup] at hq
  have hlen : ¬(dd.holdings.length = 0 ∨ quotes.length = 0) := by
    push_neg
    refine ⟨by rw [hh]; simp, fun hl => hq2 (List.length_eq_zero.mp hl)⟩
  rw [computeEstimation_some, if_neg hlen, hh]
  simp only [List.foldl_cons, List.foldl_nil, estimateStep_eq_contrib, hcontrib]
  rw [estimationFromAcc_mk]
  have hwz : w / 100 ≠ 0 := by positivity
  rw [if_neg (by push_neg; exact ⟨by simp, by simpa using hwz⟩)]
  simp only [zero_add, EstimationResult.mk.injEq]
  congr 1
  field_simp

/-- Witness for C5: a single holding of weight 37 with change 4.2 yields an
extrapolated change of exactly 4.2. -/
theorem c5_single_holding_witness :
    (computeEstimation
      (some ⟨"003834", "F", [⟨"00700", "T", JStr.numeric 37⟩], []⟩)
      [("00700", ⟨"00700", JStr.numeric 500, JStr.numeric 2,
        some (JStr.numeric (21/5))⟩)]
      (some ⟨"003834", "F", JStr.numeric 1, JStr.numeric 0⟩)).estimatedChangePct =
      some (21/5) :=
  c5_single_holding
    ⟨"003834", "F", [⟨"00700", "T", JStr.numeric 37⟩], []⟩
    [("00700", ⟨"00700", JStr.numeric 500, JStr.numeric 2,
      some (JStr.numeric (21/5))⟩)]
    ⟨"003834", "F", JStr.numeric 1, JStr.numeric 0⟩
    ⟨"00700", "T", JStr.numeric 37⟩
    ⟨"00700", JStr.numeric 500, JStr.numeric 2, some (JStr.numeric (21/5))⟩
    (JStr.numeric (21/5)) 37 (21/5)
    rfl (by simp +decide [quoteLookup]) rfl rfl rfl
    (by norm_num) (by norm_num)

/-- C7: instrument classification: 5-character codes are Hong Kong; otherwise
codes starting with 6 or 5 are Shanghai; otherwise codes starting with 0, 3,
15, 16, 2, 8 or 4 are Shenzhen; every other code — any code that fails all
three positive guards — is unknown (999999 among them); the named examples
classify as stated; and the quote batch built by getStockQuotes consists of
exactly the known-market codes, tagged — unknown codes are dropped. -/
theorem c7_market_classification :
    (∀ code : String, code.length = 5 → getStockMarket code = StockMarket.HK) ∧
    (∀ code : String, code.length ≠ 5 →
      (strStarts code "6" = true ∨ strStarts code "5" = true) →
      getStockMarket code = StockMarket.SH) ∧
    (∀ code : String, code.length ≠ 5 →
      strStarts code "6" = false → strStarts code "5" = false →
      (strStarts code "0" = true ∨ strStarts code "3" = true ∨
        strStarts code "15" = true ∨ strStarts code "16" = true ∨
        strStarts code "2" = true ∨ strStarts code "8" = true ∨
        strStarts code "4" = true) →
      getStockMarket code = StockMarket.SZ) ∧
    (∀ code : String, code.length ≠ 5 →
      strStarts code "6" = false → strStarts code "5" = false →
      strStarts code "0" = false → strStarts code "3" = false →
      strStarts code "15" = false → strStarts code "16" = false →
      strStarts code "2" = false → strStarts code "8" = false →
      strStarts code "4" = false →
      getStockMarket code = StockMarket.unknown) ∧
    getStockMarket "600519" = StockMarket.SH ∧
    getStockMarket "000001" = StockMarket.SZ ∧
    getStockMarket "00700" = StockMarket.HK ∧
    getStockMarket "999999" = StockMarket.unknown ∧
    (∀ codes : List String,
      quoteQueryCodes codes =
        (codes.filter
          (fun c => getStockMarket c != StockMarket.unknown)).map marketTag) := by
  have hne : ∀ code : String, code.length = 5 → code ≠ "" := by
    intro code hl he
    rw [he] at hl
    simp at hl
  have hstarts : ∀ pat : String, pat ≠ "" → strStarts "" pat = false := by
    intro pat hp
    unfold strStarts
    cases pat with
    | mk d =>
      cases d with
      | nil => exact absurd rfl hp
      | cons a t => simp
  refine ⟨?_, ?_, ?_, ?_, by decide, by decide, by decide, by decide, ?_⟩
  · intro code hl
    unfold getStockMarket
    rw [if_neg (hne code hl), if_pos hl]
  · intro code hl h
    have hcne : code ≠ "" := by
      intro he
      subst he
      rcases h with h | h <;> rw [hstarts _ (by decide)] at h <;> exact absurd h (by decide)
    unfold getStockMarket
    rw [if_neg hcne, if_neg hl, if_pos (by rcases h with h | h <;> simp [h])]
  · intro code hl h6 h5 h
    have hcne : code ≠ "" := by
      intro he
      subst he
      rcases h with h | h | h | h | h | h | h <;>
        rw [hstarts _ (by decide)] at h <;> exact absurd h (by decide)
    unfold getStockMarket
    rw [if_neg hcne, if_neg hl, if_neg (by simp [h6, h5]),
      if_pos (by rcases h with h | h | h | h | h | h | h <;> simp [h])]
  · intro code hl h6 h5 h0 h3 h15 h16 h2 h8 h4
    unfold getStockMarket
    by_cases hce : code = ""
    · rw [if_pos hce]
    · rw [if_neg hce, if_neg hl, if_neg (by simp [h6, h5]),
        if_neg (by simp [h0, h3, h15, h16, h2, h8, h4])]
  · intro codes
    induction codes with
    | nil => rfl
    | cons c t ih =>
      unfold quoteQueryCodes at ih ⊢
      simp only [List.map_cons, List.filter_cons]
      by_cases hc : getStockMarket c = StockMarket.unknown
      · have htag : marketTag c = "" := by
          unfold marketTag
          rw [hc]
        simp [htag, hc, ih]
      · have happ : ∀ p x : String, p.length ≠ 0 → p ++ x ≠ "" := by
          intro p x hp he
          have hl := congrArg String.length he
          rw [String.length_append] at hl
          have h0 : ("" : String).length = 0 := rfl
          rw [h0] at hl
          omega
        have htag : marketTag c ≠ "" := by
          unfold marketTag
          cases hm : getStockMarket c with
          | unknown => exact absurd hm hc
          | SH => exact happ "sh" c (by decide)
          | SZ => exact happ "sz" c (by decide)
          | HK => exact happ "hk" c (by decide)
        simp [htag, hc, ih]

/-- Witness for C7: the classifier conclusions at the concrete codes 00700
(five characters, Hong Kong), 600111 (starts with 6, Shanghai), and 777777
(fails every positive guard, unknown). -/
theorem c7_market_classification_witness :
    getStockMarket "00700" = StockMarket.HK ∧
    getStockMarket "600111" = StockMarket.SH ∧
    getStockMarket "777777" = StockMarket.unknown :=
  ⟨c7_market_classification.1 "00700" (by decide),
   c7_market_classification.2.1 "600111" (by decide) (Or.inl (by decide)),
   c7_market_classification.2.2.2.1 "777777" (by decide) (by decide)
     (by decide) (by decide) (by decide) (by decide) (by decide) (by decide)
     (by decide) (by decide)⟩

/-- C8: the trading-time gate is true exactly on Monday through Friday with
the wall-clock time inside 09:00-12:00 (both bounds included) or
13:00-16:00 (16:00 excluded); on Saturday (6) and Sunday (0) it is false at
every time. -/
theorem c8_trading_time (day h m : Nat) (hday : day ≤ 6) (hh : h ≤ 23)
    (hm : m ≤ 59) :
    isTradingTime day h m = true ↔
      ((1 ≤ day ∧ day ≤ 5) ∧
        ((9 * 60 ≤ h * 60 + m ∧ h * 60 + m ≤ 12 * 60) ∨
          (13 * 60 ≤ h * 60 + m ∧ h * 60 + m < 16 * 60))) := by
  unfold isTradingTime
  split_ifs with h1
  · simp only [Bool.or_eq_true, beq_iff_eq] at h1
    constructor
    · intro hx
      simp at hx
    · intro hx
      exfalso
      omega
  · simp only [Bool.or_eq_true, beq_iff_eq, not_or] at h1
    constructor
    · intro hx
      simp at hx
      omega
    · intro hx
      simp
      omega

/-- Witness for C8: Wednesday 09:00 is inside the gate, instantiating the
theorem at day 3, hour 9, minute 0. -/
theorem c8_trading_time_witness :
    isTradingTime 3 9 0 = true ↔
      ((1 ≤ 3 ∧ 3 ≤ 5) ∧
        ((9 * 60 ≤ 9 * 60 + 0 ∧ 9 * 60 + 0 ≤ 12 * 60) ∨
          (13 * 60 ≤ 9 * 60 + 0 ∧ 9 * 60 + 0 < 16 * 60))) :=
  c8_trading_time 3 9 0 (by decide) (by decide) (by decide)

/-- One action application preserves distinctness of the watchlist codes. -/
theorem codes_nodup_step (s : FundStore) (a : FundAction)
    (h : (codesOf s.funds).Nodup) : (codesOf (FundAction.apply s a).funds).Nodup := by
  cases a with
  | add fund now =>
    show (codesOf (addFund s fund now).funds).Nodup
    unfold addFund
    cases hf : s.funds.find? (fun f => f.code == fund.code) with
    | some f => exact h
    | none =>
      have hnm : fund.code ∉ codesOf s.funds := by
        intro hmem
        obtain ⟨f, hfm, hfc⟩ := List.mem_map.mp hmem
        have := List.find?_eq_none.mp hf f hfm
        simp [hfc] at this
      simp only [codesOf, List.map_append]
      rw [List.nodup_append]
      refine ⟨h, by simp [NewFund.stamp], ?_⟩
      intro x hx
      simp [NewFund.stamp]
      intro he
      rw [he] at hx
      exact hnm hx
  | remove code =>
    show (codesOf (removeFund s code).funds).Nodup
    have hsub : (codesOf (removeFund s code).funds).Sublist (codesOf s.funds) := by
      simp only [codesOf, removeFund]
      exact (s.funds.filter_sublist).map (fun f => f.code)
    exact hsub.nodup h
  | select code => exact h
  | setEst code e => exact h
  | setDet code d => exact h
  | setLoadEst code b => exact h
  | setLoadDet code b => exact h

/-- C9: fund code is a unique key of the watchlist: every sequence of store
actions started from a state with pairwise-distinct codes yields
pairwise-distinct codes, and addFund on a code already present returns the
state unchanged and performs no persistence write. -/
theorem c9_unique_codes :
    (∀ (s : FundStore) (acts : List FundAction), (codesOf s.funds).Nodup →
      (codesOf (applyActions s acts).funds).Nodup) ∧
    (∀ (s : FundStore) (fund : NewFund) (now : Nat),
      (∃ f ∈ s.funds, f.code = fund.code) →
      addFund s fund now = s ∧ addFundWrite s fund now = none) := by
  constructor
  · intro s acts
    induction acts generalizing s with
    | nil => exact fun h => h
    | cons a t ih =>
      intro h
      exact ih (FundAction.apply s a) (codes_nodup_step s a h)
  · intro s fund now hex
    obtain ⟨f, hfm, hfc⟩ := hex
    have hfind : (s.funds.find? (fun f => f.code == fund.code)).isSome := by
      rw [List.find?_isSome]
      exact ⟨f, hfm, by simp [hfc]⟩
    cases hf : s.funds.find? (fun f => f.code == fund.code) with
    | none => rw [hf] at hfind; simp at hfind
    | some g =>
      constructor
      · unfold addFund
        rw [hf]
      · unfold addFundWrite
        rw [hf]

/-- Witness for C9: a one-element watchlist stays duplicate-free after an add
action, and adding its own code again changes nothing and writes nothing. -/
theorem c9_unique_codes_witness :
    (codesOf (applyActions
      ⟨[⟨"161725", "A", none, none, 1, none, none⟩], none,
        fun _ => none, fun _ => none, fun _ => none, fun _ => none⟩
      [FundAction.add ⟨"110011", "B", none, none, none, none⟩ 2]).funds).Nodup ∧
    addFund
      ⟨[⟨"161725", "A", none, none, 1, none, none⟩], none,
        fun _ => none, fun _ => none, fun _ => none, fun _ => none⟩
      ⟨"161725", "C", none, none, none, none⟩ 9 =
      ⟨[⟨"161725", "A", none, none, 1, none, none⟩], none,
        fun _ => none, fun _ => none, fun _ => none, fun _ => none⟩ :=
  ⟨c9_unique_codes.1 _ _ (by simp [codesOf]),
   (c9_unique_codes.2 _ _ 9 ⟨⟨"161725", "A", none, none, 1, none, none⟩,
      by simp, rfl⟩).1⟩

/-- C10: removeFund keeps exactly the entries with a different code, in their
original order, clears the selection exactly when it pointed at the removed
code, and leaves the four cache maps untouched. -/
theorem c10_remove_frame (s : FundStore) (code : String) :
    (∀ f : MyFund, f ∈ (removeFund s code).funds ↔
      (f ∈ s.funds ∧ f.code ≠ code)) ∧
    (removeFund s code).funds.Sublist s.funds ∧
    (s.selectedCode = some code → (removeFund s code).selectedCode = none) ∧
    (s.selectedCode ≠ some code →
      (removeFund s code).selectedCode = s.selectedCode) ∧
    (removeFund s code).estimates = s.estimates ∧
    (removeFund s code).details = s.details ∧
    (removeFund s code).loadingEstimate = s.loadingEstimate ∧
    (removeFund s code).loadingDetail = s.loadingDetail := by
  refine ⟨?_, ?_, ?_, ?_, rfl, rfl, rfl, rfl⟩
  · intro f
    simp [removeFund, List.mem_filter]
  · exact s.funds.filter_sublist
  · intro h
    simp [removeFund, h]
  · intro h
    simp [removeFund, h]

/-- Witness for C10: removing the selected fund from a two-element watchlist
clears the selection and keeps the other entry. -/
theorem c10_remove_frame_witness :
    (removeFund
      ⟨[⟨"161725", "A", none, none, 1, none, none⟩,
        ⟨"110011", "B", none, none, 2, none, none⟩], some "161725",
        fun _ => none, fun _ => none, fun _ => none, fun _ => none⟩
      "161725").selectedCode = none ∧
    (⟨"110011", "B", none, none, 2, none, none⟩ : MyFund) ∈
      (removeFund
        ⟨[⟨"161725", "A", none, none, 1, none, none⟩,
          ⟨"110011", "B", none, none, 2, none, none⟩], some "161725",
          fun _ => none, fun _ => none, fun _ => none, fun _ => none⟩
        "161725").funds :=
  ⟨(c10_remove_frame _ "161725").2.2.1 rfl,
   ((c10_remove_frame _ "161725").1 _).mpr ⟨by simp, by decide⟩⟩

/-- When every stock weight parses (or is empty), the running JS total over
the stock holdings is an actual number: the starting value plus the spec sum. -/
theorem foldl_ratio_stocks (stocks : List HoldingStock) (a : ℚ)
    (h : ∀ s ∈ stocks, s.ratio = JStr.empty ∨ ∃ q, s.ratio = JStr.numeric q) :
    stocks.foldl (fun acc s => acc.add (ratioOrZero s.ratio)) (JSNum.num a) =
      JSNum.num (a + (stocks.map
        (fun s => match s.ratio with | JStr.numeric q => q | _ => 0)).sum) := by
  induction stocks generalizing a with
  | nil => simp
  | cons s t ih =>
    have hs := h s (by simp)
    have ht : ∀ x ∈ t, x.ratio = JStr.empty ∨ ∃ q, x.ratio = JStr.numeric q :=
      fun x hx => h x (by simp [hx])
    rcases hs with hs | ⟨q, hs⟩
    · have hstep : (JSNum.num a).add (ratioOrZero s.ratio) = JSNum.num (a + 0) := by
        rw [hs]
        simp [ratioOrZero, JSNum.add]
      rw [List.foldl_cons, hstep, ih _ ht]
      simp only [List.map_cons, List.sum_cons, hs, JSNum.num.injEq]
      ring
    · have hstep : (JSNum.num a).add (ratioOrZero s.ratio) = JSNum.num (a + q) := by
        rw [hs]
        simp [ratioOrZero, parseFloatJS, JSNum.add]
      rw [List.foldl_cons, hstep, ih _ ht]
      simp only [List.map_cons, List.sum_cons, hs, JSNum.num.injEq]
      ring

/-- The bond analogue of the previous lemma. -/
theorem foldl_ratio_bonds (bonds : List BondHolding) (a : ℚ)
    (h : ∀ b ∈ bonds, b.ratio = JStr.empty ∨ ∃ q, b.ratio = JStr.numeric q) :
    bonds.foldl (fun acc b => acc.add (ratioOrZero b.ratio)) (JSNum.num a) =
      JSNum.num (a + (bonds.map
        (fun b => match b.ratio with | JStr.numeric q => q | _ => 0)).sum) := by
  induction bonds generalizing a with
  | nil => simp
  | cons b t ih =>
    have hb := h b (by simp)
    have ht : ∀ x ∈ t, x.ratio = JStr.empty ∨ ∃ q, x.ratio = JStr.numeric q :=
      fun x hx => h x (by simp [hx])
    rcases hb with hb | ⟨q, hb⟩
    · have hstep : (JSNum.num a).add (ratioOrZero b.ratio) = JSNum.num (a + 0) := by
        rw [hb]
        simp [ratioOrZero, JSNum.add]
      rw [List.foldl_cons, hstep, ih _ ht]
      simp only [List.map_cons, List.sum_cons, hb, JSNum.num.injEq]
      ring
    · have hstep : (JSNum.num a).add (ratioOrZero b.ratio) = JSNum.num (a + q) := by
        rw [hb]
        simp [ratioOrZero, parseFloatJS, JSNum.add]
      rw [List.foldl_cons, hstep, ih _ ht]
      simp only [List.map_cons, List.sum_cons, hb, JSNum.num.injEq]
      ring

/-- When every weight parses (or is empty), currentTotal is the actual number
given by the spec-level sum of the known weights. -/
theorem currentTotalJS_eq (stocks : List HoldingStock) (bonds : List BondHolding)
    (h : ratiosParse stocks bonds) :
    currentTotalJS stocks bonds = JSNum.num (sumKnownWeights stocks bonds) := by
  obtain ⟨hs, hb⟩ := h
  unfold currentTotalJS sumKnownWeights
  rw [foldl_ratio_stocks stocks 0 hs, foldl_ratio_bonds bonds _ hb]
  norm_num

/-- A present, non-empty, non-sentinel numeric JJ field parses to its value. -/
theorem preciseRatio0_numeric (r : ℚ) :
    preciseRatio0 (some (JStr.numeric r)) = JSNum.num r := by
  have h : preciseRatio0 (some (JStr.numeric r)) =
      if JStr.numeric r = JStr.empty ∨ JStr.numeric r = JStr.dashes then
        JSNum.num 0
      else parseFloatJS (JStr.numeric r) := rfl
  rw [h, if_neg (by simp)]
  rfl

/-- Whenever the precise figure is rejected per the source's range test (it is
missing, empty, the sentinel, or a number outside (0, 100]), the first JS
range check fires. -/
theorem preciseRatio0_rejected_check (allocJJ : Option JStr)
    (h : jjRejected allocJJ) :
    ((preciseRatio0 allocJJ).leB (.num 0) ||
      (JSNum.num 100).ltB (preciseRatio0 allocJJ)) = true := by
  rcases h with h | h | h | ⟨r, h, hr⟩ <;> subst h
  · simp [preciseRatio0, JSNum.leB]
  · simp [preciseRatio0, JSNum.leB]
  · simp [preciseRatio0, JSNum.leB]
  · rw [preciseRatio0_numeric]
    rcases hr with hr | hr
    · simp [JSNum.leB, hr]
    · simp [JSNum.leB, JSNum.ltB, hr]

/-- A precise figure inside (0, 100] survives the first range check. -/
theorem etfRatioFinal_precise (allocJJ : Option JStr)
    (cashD : Option (List JStr)) (ct : JSNum) (r : ℚ)
    (hjj : allocJJ = some (JStr.numeric r)) (h1 : 0 < r) (h2 : r ≤ 100) :
    etfRatioFinal allocJJ cashD ct = JSNum.num r := by
  subst hjj
  unfold etfRatioFinal
  rw [preciseRatio0_numeric]
  rw [if_neg ?hcond]
  case hcond =>
    simp only [JSNum.leB, JSNum.ltB, Bool.or_eq_true, decide_eq_true_eq, not_or]
    exact ⟨not_le.mpr h1, not_lt.mpr h2⟩

/-- A present but non-parsing JJ field makes the pre-clamp ratio NaN: neither
range check can fire on NaN, so no fallback is attempted. -/
theorem etfRatioFinal_nan_jj (cashD : Option (List JStr)) (ct : JSNum) :
    etfRatioFinal (some JStr.other) cashD ct = JSNum.nan := by
  have hp : preciseRatio0 (some JStr.other) = JSNum.nan := by
    have h : preciseRatio0 (some JStr.other) =
        if JStr.other = JStr.empty ∨ JStr.other = JStr.dashes then JSNum.num 0
        else parseFloatJS JStr.other := rfl
    rw [h, if_neg (by simp)]
    rfl
  unfold etfRatioFinal
  rw [hp]
  rw [if_neg (by simp [JSNum.leB, JSNum.ltB])]

/-- A non-empty cash series whose latest point reads as the number cash gives
the estimate 100 - cash - S. -/
theorem estimatedEtfRatio0_eq (ds : List JStr) (S cash : ℚ) (hds : ds ≠ [])
    (hcash : lastCashParsed ds = some cash) :
    estimatedEtfRatio0 (some ds) (JSNum.num S) = JSNum.num (100 - cash - S) := by
  have hred : estimatedEtfRatio0 (some ds) (JSNum.num S) =
      if 0 < ds.length then
        ((JSNum.num 100).sub (cashValJS (ds.getLastD JStr.other))).sub
          (JSNum.num S)
      else JSNum.num 0 := rfl
  rw [hred, if_pos (List.length_pos.mpr hds)]
  unfold lastCashParsed at hcash
  cases hlast : ds.getLastD JStr.other <;> rw [hlast] at hcash
  · simp only [Option.some.injEq] at hcash
    subst hcash
    rw [show cashValJS JStr.empty = JSNum.num 5 from rfl]
    simp [JSNum.sub]
  · simp at hcash
  · rename_i q
    simp only [Option.some.injEq] at hcash
    subst hcash
    rw [show cashValJS (JStr.numeric q) = JSNum.num q from by
      unfold cashValJS
      rw [if_neg (by simp)]
      rfl]
    simp [JSNum.sub]
  · simp at hcash

/-- The cash-series estimate is used when the precise figure is rejected and
the estimate itself lies inside (0, 100]. -/
theorem etfRatioFinal_cash (allocJJ : Option JStr) (ds : List JStr)
    (S cash : ℚ) (hjj : jjRejected allocJJ) (hds : ds ≠ [])
    (hcash : lastCashParsed ds = some cash)
    (h1 : 0 < 100 - cash - S) (h2 : 100 - cash - S ≤ 100) :
    etfRatioFinal allocJJ (some ds) (JSNum.num S) =
      JSNum.num (100 - cash - S) := by
  unfold etfRatioFinal
  rw [if_pos (preciseRatio0_rejected_check allocJJ hjj)]
  rw [estimatedEtfRatio0_eq ds S cash hds hcash]
  rw [if_neg ?hcond]
  case hcond =>
    simp only [JSNum.leB, JSNum.ltB, Bool.or_eq_true, decide_eq_true_eq, not_or]
    exact ⟨not_le.mpr h1, not_lt.mpr h2⟩

/-- The 95 - S fallback is used when the precise figure is rejected and the
cash-series estimate is unavailable or itself rejected by the range check. -/
theorem etfRatioFinal_fallback95 (allocJJ : Option JStr)
    (cashD : Option (List JStr)) (S : ℚ) (hjj : jjRejected allocJJ)
    (hcd : cashD = none ∨ cashD = some [] ∨
      (∃ ds cash, cashD = some ds ∧ ds ≠ [] ∧ lastCashParsed ds = some cash ∧
        (100 - cash - S ≤ 0 ∨ 100 < 100 - cash - S))) :
    etfRatioFinal allocJJ cashD (JSNum.num S) = JSNum.num (95 - S) := by
  unfold etfRatioFinal
  rw [if_pos (preciseRatio0_rejected_check allocJJ hjj)]
  have hest : ((estimatedEtfRatio0 cashD (JSNum.num S)).leB (.num 0) ||
      (JSNum.num 100).ltB (estimatedEtfRatio0 cashD (JSNum.num S))) = true := by
    rcases hcd with h | h | ⟨ds, cash, h, hds, hcash, hrange⟩ <;> subst h
    · simp [estimatedEtfRatio0, JSNum.leB]
    · simp [estimatedEtfRatio0, JSNum.leB]
    · rw [estimatedEtfRatio0_eq ds S cash hds hcash]
      rcases hrange with hr | hr
      · simp [JSNum.leB, hr]
      · simp [JSNum.leB, JSNum.ltB, hr]
  rw [if_pos hest]
  simp [JSNum.sub]

/-- When the pre-clamp ratio is an actual positive number v, getFundDetail
appends exactly one pseudo-holding carrying toFixed(2) of v. -/
theorem synthesizeEtf_push (ec en : String) (allocJJ : Option JStr)
    (cashD : Option (List JStr)) (stocks : List HoldingStock)
    (bonds : List BondHolding) (v : ℚ)
    (hv : etfRatioFinal allocJJ cashD (currentTotalJS stocks bonds) =
      JSNum.num v)
    (hpos : 0 < v) :
    synthesizeEtf (some ec) (some en) allocJJ cashD stocks bonds =
      stocks ++ [{ stockCode := ec, stockName := en ++ " (主要联接标的)",
                   ratio := JStr.numeric (toFixed2 v) }] := by
  have hc1 : (JSNum.num v).ltB (JSNum.num 0) = false := by
    simp only [JSNum.ltB, decide_eq_false_iff_not, not_lt]
    exact le_of_lt hpos
  have hc2 : (JSNum.num 0).ltB (JSNum.num v) = true := by
    simp only [JSNum.ltB, decide_eq_true_eq]
    exact hpos
  simp only [synthesizeEtf, hv, hc1, Bool.false_eq_true, if_false, hc2,
    if_true, toFixedStr]

/-- When the pre-clamp ratio is at most 0, nothing is appended. -/
theorem synthesizeEtf_nopush (ec en : String) (allocJJ : Option JStr)
    (cashD : Option (List JStr)) (stocks : List HoldingStock)
    (bonds : List BondHolding) (v : ℚ)
    (hv : etfRatioFinal allocJJ cashD (currentTotalJS stocks bonds) =
      JSNum.num v)
    (hneg : v ≤ 0) :
    synthesizeEtf (some ec) (some en) allocJJ cashD stocks bonds = stocks := by
  by_cases hlt : v < 0
  · have hc1 : (JSNum.num v).ltB (JSNum.num 0) = true := by
      simp only [JSNum.ltB, decide_eq_true_eq]
      exact hlt
    have hc2 : (JSNum.num 0).ltB (JSNum.num 0) = false := by
      simp [JSNum.ltB]
    simp only [synthesizeEtf, hv, hc1, if_true, hc2, Bool.false_eq_true,
      if_false]
  · have hv0 : v = 0 := le_antisymm hneg (not_lt.mp hlt)
    subst hv0
    have hc1 : (JSNum.num 0).ltB (JSNum.num 0) = false := by
      simp [JSNum.ltB]
    simp only [synthesizeEtf, hv, hc1, Bool.false_eq_true, if_false]

/-- When the pre-clamp ratio is NaN, every JS comparison on it is false and
nothing is appended. -/
theorem synthesizeEtf_nan (ec en : String) (allocJJ : Option JStr)
    (cashD : Option (List JStr)) (stocks : List HoldingStock)
    (bonds : List BondHolding)
    (hv : etfRatioFinal allocJJ cashD (currentTotalJS stocks bonds) =
      JSNum.nan) :
    synthesizeEtf (some ec) (some en) allocJJ cashD stocks bonds = stocks := by
  have hc1 : JSNum.nan.ltB (JSNum.num 0) = false := rfl
  have hc2 : (JSNum.num 0).ltB JSNum.nan = false := rfl
  simp only [synthesizeEtf, hv, hc1, Bool.false_eq_true, if_false, hc2]

/-- A non-empty cash series whose latest point is present but does not parse
(and is not empty) makes the estimate NaN: 100 - NaN - total is NaN. -/
theorem estimatedEtfRatio0_nan (ds : List JStr) (ct : JSNum) (hds : ds ≠ [])
    (hcash : lastCashParsed ds = none) :
    estimatedEtfRatio0 (some ds) ct = JSNum.nan := by
  have hred : estimatedEtfRatio0 (some ds) ct =
      if 0 < ds.length then
        ((JSNum.num 100).sub (cashValJS (ds.getLastD JStr.other))).sub ct
      else JSNum.num 0 := rfl
  rw [hred, if_pos (List.length_pos.mpr hds)]
  unfold lastCashParsed at hcash
  cases hlast : ds.getLastD JStr.other <;> rw [hlast] at hcash
  · simp at hcash
  · rw [show cashValJS JStr.dashes = JSNum.nan from rfl]
    rfl
  · simp at hcash
  · rw [show cashValJS JStr.other = JSNum.nan from rfl]
    rfl

/-- When the precise figure is rejected and the latest cash point does not
parse, the pre-clamp ratio is NaN: the NaN estimate fails both range checks,
so the 95 - total fallback is skipped as well. -/
theorem etfRatioFinal_nan_cash (allocJJ : Option JStr) (ds : List JStr)
    (ct : JSNum) (hjj : jjRejected allocJJ) (hds : ds ≠ [])
    (hcash : lastCashParsed ds = none) :
    etfRatioFinal allocJJ (some ds) ct = JSNum.nan := by
  unfold etfRatioFinal
  rw [if_pos (preciseRatio0_rejected_check allocJJ hjj)]
  rw [estimatedEtfRatio0_nan ds ct hds hcash]
  rw [if_neg (by simp [JSNum.leB, JSNum.ltB])]

/-- C6 (amended): when the feed marks the fund as an ETF feeder and all known
holding weights parse (or are empty), getFundDetail appends at most one
synthetic pseudo-holding chosen by priority: (a) the precise fund-asset-ratio
field when it parses as a number r with 0 < r ≤ 100 (the source accepts
exactly 100, not only values strictly below it); a present non-parsing field
yields NaN, fails both range checks, and appends nothing — the fallback is
not attempted; (b) otherwise 100 - cashWeight - sum of known weights, read
from a non-empty cash series whose latest point parses (empty defaults to 5),
used when that value lies in (0, 100]; a non-empty cash series whose latest
point is a non-parsing non-empty string makes that estimate NaN, which fails
both range checks, so the 95 - sum fallback is skipped and nothing is
appended; (c) otherwise 95 - sum of known weights, appended only if
positive. -/
theorem c6_amended_feeder_weight (ec en : String) (allocJJ : Option JStr)
    (cashD : Option (List JStr)) (stocks : List HoldingStock)
    (bonds : List BondHolding) (hparse : ratiosParse stocks bonds) :
    (∀ r : ℚ, allocJJ = some (JStr.numeric r) → 0 < r → r ≤ 100 →
      synthesizeEtf (some ec) (some en) allocJJ cashD stocks bonds =
        stocks ++ [{ stockCode := ec, stockName := en ++ " (主要联接标的)",
                     ratio := JStr.numeric (toFixed2 r) }]) ∧
    (allocJJ = some JStr.other →
      synthesizeEtf (some ec) (some en) allocJJ cashD stocks bonds = stocks) ∧
    (∀ (ds : List JStr) (cash : ℚ), jjRejected allocJJ → cashD = some ds →
      ds ≠ [] → lastCashParsed ds = some cash →
      0 < 100 - cash - sumKnownWeights stocks bonds →
      100 - cash - sumKnownWeights stocks bonds ≤ 100 →
      synthesizeEtf (some ec) (some en) allocJJ cashD stocks bonds =
        stocks ++ [{ stockCode := ec, stockName := en ++ " (主要联接标的)",
                     ratio := JStr.numeric
                       (toFixed2 (100 - cash - sumKnownWeights stocks bonds)) }]) ∧
    (∀ ds : List JStr, jjRejected allocJJ → cashD = some ds → ds ≠ [] →
      lastCashParsed ds = none →
      synthesizeEtf (some ec) (some en) allocJJ cashD stocks bonds = stocks) ∧
    ((cashD = none ∨ cashD = some [] ∨
        (∃ ds cash, cashD = some ds ∧ ds ≠ [] ∧ lastCashParsed ds = some cash ∧
          (100 - cash - sumKnownWeights stocks bonds ≤ 0 ∨
            100 < 100 - cash - sumKnownWeights stocks bonds))) →
      jjRejected allocJJ →
      synthesizeEtf (some ec) (some en) allocJJ cashD stocks bonds =
        (if 0 < 95 - sumKnownWeights stocks bonds then
          stocks ++ [{ stockCode := ec, stockName := en ++ " (主要联接标的)",
                       ratio := JStr.numeric
                         (toFixed2 (95 - sumKnownWeights stocks bonds)) }]
         else stocks)) := by
  have hct : currentTotalJS stocks bonds =
      JSNum.num (sumKnownWeights stocks bonds) :=
    currentTotalJS_eq stocks bonds hparse
  refine ⟨?_, ?_, ?_, ?_, ?_⟩
  · intro r hjj h1 h2
    exact synthesizeEtf_push ec en allocJJ cashD stocks bonds r
      (etfRatioFinal_precise allocJJ cashD _ r hjj h1 h2) h1
  · intro hjj
    subst hjj
    exact synthesizeEtf_nan ec en _ cashD stocks bonds
      (etfRatioFinal_nan_jj cashD _)
  · intro ds cash hjj hcd hds hcash h1 h2
    subst hcd
    refine synthesizeEtf_push ec en allocJJ (some ds) stocks bonds _ ?_ h1
    rw [hct]
    exact etfRatioFinal_cash allocJJ ds _ cash hjj hds hcash h1 h2
  · intro ds hjj hcd hds hcash
    subst hcd
    exact synthesizeEtf_nan ec en allocJJ (some ds) stocks bonds
      (etfRatioFinal_nan_cash allocJJ ds _ hjj hds hcash)
  · intro hcd hjj
    have hv : etfRatioFinal allocJJ cashD (currentTotalJS stocks bonds) =
        JSNum.num (95 - sumKnownWeights stocks bonds) := by
      rw [hct]
      exact etfRatioFinal_fallback95 allocJJ cashD _ hjj hcd
    by_cases hpos : 0 < 95 - sumKnownWeights stocks bonds
    · rw [if_pos hpos]
      exact synthesizeEtf_push ec en allocJJ cashD stocks bonds _ hv hpos
    · rw [if_neg hpos]
      exact synthesizeEtf_nopush ec en allocJJ cashD stocks bonds _ hv
        (le_of_not_lt hpos)

/-- Witness for the amended C6: known holdings summing to 30, no precise
allocation figure and no cash series yield the synthesized weight
95 - 30 = 65. -/
theorem c6_amended_feeder_weight_witness :
    synthesizeEtf (some "510300") (some "E") none none
      [⟨"600000", "A", JStr.numeric 30⟩] [] =
      [⟨"600000", "A", JStr.numeric 30⟩,
       ⟨"510300", "E (主要联接标的)", JStr.numeric 65⟩] := by
  have h := (c6_amended_feeder_weight "510300" "E" none none
      [⟨"600000", "A", JStr.numeric 30⟩] []
      ⟨by
        intro x hx
        simp only [List.mem_singleton] at hx
        rw [hx]
        exact Or.inr ⟨30, rfl⟩,
       by
        intro x hx
        simp at hx⟩).2.2.2.2 (Or.inl rfl) (Or.inl rfl)
  rw [h]
  have hs : sumKnownWeights [⟨"600000", "A", JStr.numeric 30⟩] [] = 30 := by
    simp [sumKnownWeights]
  rw [hs]
  rw [if_pos (by norm_num)]
  have hf : toFixed2 (95 - 30) = 65 := by
    norm_num [toFixed2, round_eq]
  rw [hf]
  simp

/-- Counterexample to C6 as stated: with the precise fund-asset-ratio field
equal to 100 (not strictly between 0 and 100), known holdings summing to 30
and no cash data, the claim prescribes falling back to weight 95 - 30 = 65,
but the code accepts the precise value and appends weight 100. -/
theorem c6_counterexample :
    synthesizeEtf (some "510300") (some "E") (some (JStr.numeric 100)) none
      [⟨"600000", "A", JStr.numeric 30⟩] [] =
      [⟨"600000", "A", JStr.numeric 30⟩,
       ⟨"510300", "E (主要联接标的)", JStr.numeric 100⟩] ∧
    synthesizeEtf (some "510300") (some "E") (some (JStr.numeric 100)) none
      [⟨"600000", "A", JStr.numeric 30⟩] [] ≠
      [⟨"600000", "A", JStr.numeric 30⟩,
       ⟨"510300", "E (主要联接标的)", JStr.numeric 65⟩] := by
  have h := synthesizeEtf_push "510300" "E" (some (JStr.numeric 100)) none
    [⟨"600000", "A", JStr.numeric 30⟩] [] 100
    (etfRatioFinal_precise _ none _ 100 rfl (by norm_num) (by norm_num))
    (by norm_num)
  have hf : toFixed2 100 = 100 := by
    norm_num [toFixed2, round_eq]
  rw [h, hf]
  constructor
  · simp
  · simp only [List.cons_append, List.nil_append, ne_eq, List.cons.injEq,
      HoldingStock.mk.injEq, JStr.numeric.injEq]
    intro hx
    norm_num at hx
